import Mathlib

/-
Verification of the UI utility module (www/js/lib/uiUtil.js) of a
browser-hosted offline-archive reader.  The module is shallowly embedded:
each JavaScript function relevant to the checked claims is translated into
a pure Lean function over an explicit state record, with browser side
effects (DOM class lists, element display styles, event-listener
registration, object-URL creation) represented as fields of those records
or as event traces.  Regular-expression rewrites from the source are
translated into equivalent list/string operations, documented at each
definition.
-/

/-! ## String helpers translated from the regular expressions in uiUtil.js -/

/-- Translation of `theme.replace(/_.*$/, '')` from applyAppTheme:
keeps the characters before the first underscore (the appTheme part). -/
def appThemeOf (theme : String) : String :=
  String.mk (theme.toList.takeWhile (fun c => c ≠ '_'))

/-- Translation of `theme.replace(/^[^_]*/, '')` from applyAppTheme:
keeps the characters from the first underscore on (the contentTheme part). -/
def contentThemeOf (theme : String) : String :=
  String.mk (theme.toList.dropWhile (fun c => c ≠ '_'))

/-- The character class of `filename.replace(/[\/\\:*?"<>|]/g, '_')` in
displayFileDownloadAlert.  Note that the space character is not in it. -/
def badFilenameChars : List Char := ['/', '\\', ':', '*', '?', '"', '<', '>', '|']

/-- Translation of `filename.replace(/[\/\\:*?"<>|]/g, '_')`: every
character of the class is replaced by an underscore, all others kept. -/
def sanitizeFilename (f : String) : String :=
  String.mk (f.toList.map (fun c => if c ∈ badFilenameChars then '_' else c))

/-- Translation of `title.replace(/^.*\/([^\/]+)$/, '$1')`: the regex
matches exactly when the string contains a slash and does not end with a
slash, and then rewrites the whole string to the part after the last
slash; when it does not match, replace leaves the string unchanged. -/
def basenameOf (title : String) : String :=
  let tl := title.toList
  let afterSlash := (tl.reverse.takeWhile (fun c => c ≠ '/')).reverse
  if '/' ∈ tl ∧ afterSlash ≠ [] then String.mk afterSlash else title

/-- Translation of `cacheNames.app.replace(/^([^\d]+).+/, '$1')` from
checkUpdateStatus.  With k leading non-digit characters: if k = 0 the
regex does not match and the string is unchanged; if the whole string is
non-digits, greedy backtracking leaves the last character to `.+`; else
the group captures exactly the leading non-digit run. -/
def cachePrefixOf (app : String) : String :=
  let l := app.toList
  let k := (l.takeWhile (fun c => ¬ c.isDigit)).length
  if k = 0 then app
  else if k = l.length then String.mk (l.take (k - 1))
  else String.mk (l.take k)

/-- Translation of JavaScript `s.replace(pat, '')` for a plain string
pattern: removes the first occurrence of the pattern, if any. -/
def listRemoveFirst (pat : List Char) : List Char → List Char
  | [] => []
  | c :: rest =>
    if pat.isPrefixOf (c :: rest) then (c :: rest).drop pat.length
    else c :: listRemoveFirst pat rest

/-- Removes the last occurrence of the character and everything after it
(used for anchored regex rewrites of the form such-char-then-tail). -/
def dropFromLastChar (ch : Char) (u : List Char) : List Char :=
  ((u.reverse.dropWhile (fun c => c ≠ ch)).drop 1).reverse

/-- Translation of `url.replace(/\?[^?]*$/, '')` from removeUrlParameters:
the only possible match starts at the last question mark, so the rewrite
truncates the string there; with no question mark nothing changes. -/
def removeQuerystring (u : List Char) : List Char :=
  if '?' ∈ u then dropFromLastChar '?' u else u

/-- Translation of `strippedUrl.replace(/#[^#;]*$/, '')`: the only
possible match starts at the last hash sign, and it succeeds exactly when
no semicolon follows that hash (entity references are kept); then the
rewrite truncates the string at that hash. -/
def removeAnchor (u : List Char) : List Char :=
  if '#' ∈ u ∧ ';' ∉ u.reverse.takeWhile (fun c => c ≠ '#') then
    dropFromLastChar '#' u
  else u

/-- Model of removeUrlParameters from uiUtil.js: first strip a trailing
querystring, then a trailing anchor. -/
def removeUrlParameters (url : String) : String :=
  String.mk (removeAnchor (removeQuerystring url.toList))

/-! ## Download alert (displayFileDownloadAlert) -/

/-- The `download` argument of displayFileDownloadAlert: either the
boolean true (derive the filename from the title) or an explicit
filename string. -/
inductive DownloadDirective where
  | fromTitle : DownloadDirective
  | givenName : String → DownloadDirective
  deriving DecidableEq

/-- The part of the page state touched by displayFileDownloadAlert.
`downloadDismissListeners` counts click listeners attached to the dismiss
button of the download alert banner. -/
structure DownloadState where
  downloadAlertDisplay : String
  downloadAlertSetup : Bool
  downloadDismissListeners : Nat
  linkFilename : String
  linkContentType : String
  searchingArticlesHidden : Bool
  deriving DecidableEq

/-- Fresh session state for the download alert: the module-level
`downloadAlertSetup` flag starts false and no listener is attached. -/
def initDownloadState : DownloadState :=
  ⟨"none", false, 0, "", "", false⟩

/-- Model of displayFileDownloadAlert: reveals the banner, attaches the
dismiss listener only when the one-time flag is still false, then sets
the flag, defaults the content type, derives and sanitizes the filename,
and hides the search spinner.  The anchor-element and object-URL
plumbing carries the computed filename and content type. -/
def displayFileDownloadAlert (title : String) (download : DownloadDirective)
    (contentType : String) (s : DownloadState) : DownloadState :=
  let listeners :=
    if s.downloadAlertSetup then s.downloadDismissListeners
    else s.downloadDismissListeners + 1
  let ct := if contentType = "" then "application/octet-stream" else contentType
  let fname0 :=
    match download with
    | DownloadDirective.fromTitle => basenameOf title
    | DownloadDirective.givenName f => f
  { downloadAlertDisplay := "block"
    downloadAlertSetup := true
    downloadDismissListeners := listeners
    linkFilename := sanitizeFilename fname0
    linkContentType := ct
    searchingArticlesHidden := true }

/-- A session-long sequence of displayFileDownloadAlert calls. -/
def runDownloadCalls (calls : List (String × DownloadDirective × String))
    (s : DownloadState) : DownloadState :=
  calls.foldl (fun st c => displayFileDownloadAlert c.1 c.2.1 c.2.2 st) s

/-! ## Theorems for claims C1 and C10 -/

/-- Claim C1 counterexample: the claim predicts filename `My_File.txt`
for title `/docs/My File.txt` with download directive true, but the
sanitize character class of the code does not contain the space
character, so the derived filename keeps its space. -/
theorem displayFileDownloadAlert_claimC1_false :
    ¬ ((displayFileDownloadAlert "/docs/My File.txt" DownloadDirective.fromTitle
        "text/plain" initDownloadState).linkFilename = "My_File.txt") := by
  decide

/-- Claim C1 (amended): with title `/docs/My File.txt`, download
directive true and content type `text/plain`, the derived filename is
`My File.txt` (the trailing path segment; only the characters
slash, backslash, colon, star, question mark, double quote, angle
brackets and pipe are replaced by an underscore, and the space is kept),
and the download alert banner display style is set to `block`. -/
theorem displayFileDownloadAlert_myFile :
    (displayFileDownloadAlert "/docs/My File.txt" DownloadDirective.fromTitle
      "text/plain" initDownloadState).linkFilename = "My File.txt" ∧
    (displayFileDownloadAlert "/docs/My File.txt" DownloadDirective.fromTitle
      "text/plain" initDownloadState).downloadAlertDisplay = "block" := by
  exact ⟨by decide, by decide⟩

/-- Any list decomposes as the truncation at its last occurrence of a
character followed by a remainder. -/
theorem dropFromLastChar_decomp (ch : Char) (u : List Char) :
    ∃ t, u = dropFromLastChar ch u ++ t := by
  have hsplit := List.takeWhile_append_dropWhile (fun c => c ≠ ch) u.reverse
  cases hd : u.reverse.dropWhile (fun c => c ≠ ch) with
  | nil =>
    refine ⟨u, ?_⟩
    rw [dropFromLastChar, hd]
    simp
  | cons x xs =>
    refine ⟨x :: (u.reverse.takeWhile (fun c => c ≠ ch)).reverse, ?_⟩
    rw [hd] at hsplit
    have hu : u = (u.reverse.takeWhile (fun c => c ≠ ch) ++ x :: xs).reverse := by
      rw [hsplit, List.reverse_reverse]
    rw [dropFromLastChar, hd]
    calc u = (u.reverse.takeWhile (fun c => c ≠ ch) ++ x :: xs).reverse := hu
    _ = ((x :: xs).drop 1).reverse ++
          (x :: (u.reverse.takeWhile (fun c => c ≠ ch)).reverse) := by
        simp [List.reverse_append]

/-- The querystring rewrite only truncates. -/
theorem removeQuerystring_decomp (u : List Char) :
    ∃ t, u = removeQuerystring u ++ t := by
  by_cases h : '?' ∈ u
  · have he : removeQuerystring u = dropFromLastChar '?' u := by
      rw [removeQuerystring, if_pos h]
    rw [he]
    exact dropFromLastChar_decomp '?' u
  · have he : removeQuerystring u = u := by
      rw [removeQuerystring, if_neg h]
    rw [he]
    exact ⟨[], by simp⟩

/-- The anchor rewrite only truncates. -/
theorem removeAnchor_decomp (u : List Char) :
    ∃ t, u = removeAnchor u ++ t := by
  by_cases h : '#' ∈ u ∧ ';' ∉ u.reverse.takeWhile (fun c => c ≠ '#')
  · have he : removeAnchor u = dropFromLastChar '#' u := by
      rw [removeAnchor, if_pos h]
    rw [he]
    exact dropFromLastChar_decomp '#' u
  · have he : removeAnchor u = u := by
      rw [removeAnchor, if_neg h]
    rw [he]
    exact ⟨[], by simp⟩

/-- Claim C10: for every input string, the output of removeUrlParameters
is a prefix of the input; both rewriting steps only remove a suffix and
no characters are inserted or reordered. -/
theorem removeUrlParameters_truncates (url : String) :
    ∃ t, url.toList = (removeUrlParameters url).toList ++ t := by
  obtain ⟨t1, h1⟩ := removeQuerystring_decomp url.toList
  obtain ⟨t2, h2⟩ := removeAnchor_decomp (removeQuerystring url.toList)
  refine ⟨t2 ++ t1, ?_⟩
  have hres : (removeUrlParameters url).toList
      = removeAnchor (removeQuerystring url.toList) := rfl
  calc url.toList = removeQuerystring url.toList ++ t1 := h1
    _ = (removeAnchor (removeQuerystring url.toList) ++ t2) ++ t1 :=
        congrArg (fun x => x ++ t1) h2
    _ = (removeUrlParameters url).toList ++ (t2 ++ t1) := by
        rw [hres, List.append_assoc]

/-! ## Update notifier (checkUpdateStatus) -/

/-- The cache-name record returned by settingsStore.getCacheNames: the
current app cache identifier, the current assets cache identifier, and
the error marker checked by `!cacheNames.error`. -/
structure CacheNames where
  app : String
  assets : String
  error : Bool
  deriving DecidableEq

/-- The part of the page and session state touched by checkUpdateStatus.
`updateDismissListeners` counts click listeners attached to the dismiss
button of the update banner (wired at module load, not by the
function). -/
structure UpdateState where
  pwaUpdateNeeded : Bool
  updateAlertDisplay : String
  persistentMessage : String
  paramsCacheNames : Option CacheNames
  updateDismissListeners : Nat
  deriving DecidableEq

/-- Fresh session state for the update notifier. -/
def initUpdateState : UpdateState :=
  ⟨false, "none", "", none, 0⟩

/-- The per-key body of the keyList.forEach loop in checkUpdateStatus:
return early when the key equals the app or assets cache identifier;
return early when `key.indexOf(cachePrefix)` is non-zero, that is when
the key does not start with the derived prefix; otherwise set the
pending-update flag, reveal the update banner, and write the version
suffix (the key with the first occurrence of the prefix removed, by
`key.replace(cachePrefix, '')`) into the persistent message area. -/
def processKey (cn : CacheNames) (st : UpdateState) (key : String) : UpdateState :=
  if key = cn.app ∨ key = cn.assets then st
  else if (cachePrefixOf cn.app).toList.isPrefixOf key.toList = false then st
  else
    { st with
      pwaUpdateNeeded := true
      updateAlertDisplay := "block"
      persistentMessage :=
        "Version " ++ String.mk (listRemoveFirst (cachePrefixOf cn.app).toList key.toList)
          ++ " is ready to install. (Re-launch app to install.)" }

/-- Model of checkUpdateStatus: proceeds only when the platform has
service workers and no update has been flagged this session; a missing
or error-marked cache-name record is a silent no-op; otherwise it stores
the cache names, hides the update banner, and scans the live cache keys
with the per-key body.  The asynchronous callbacks of the source are
collapsed into one state transition. -/
def checkUpdateStatus (hasSW : Bool) (cacheNamesResult : Option CacheNames)
    (keyList : List String) (s : UpdateState) : UpdateState :=
  if hasSW ∧ ¬ s.pwaUpdateNeeded then
    cacheNamesResult.elim s (fun cn =>
      if cn.error then s
      else
        keyList.foldl (processKey cn)
          { s with paramsCacheNames := some cn, updateAlertDisplay := "none" })
  else s

/-- Module-load wiring of the update banner dismiss button (the
`if (updateAlert) updateAlert.querySelector...addEventListener` statement
that runs once when uiUtil.js is evaluated). -/
def attachUpdateAlertDismiss (present : Bool) (s : UpdateState) : UpdateState :=
  if present then { s with updateDismissListeners := s.updateDismissListeners + 1 }
  else s

/-- A session-long sequence of checkUpdateStatus calls, each seeing its
own platform flag, settings result and live key list. -/
def runUpdateCalls (calls : List (Bool × Option CacheNames × List String))
    (s : UpdateState) : UpdateState :=
  calls.foldl (fun st c => checkUpdateStatus c.1 c.2.1 c.2.2 st) s

/-! ## Theorems for claims C2, C3, C9 and C8 -/

/-- Claim C2: once the pending-update flag (appstate.pwaUpdateNeeded) is
true, every call of checkUpdateStatus is a no-op on the whole state, for
any platform flag, any settings result (including one containing a
qualifying newer version) and any live key list; in particular the flag
is never reset and is set at most once per session. -/
theorem checkUpdateStatus_noop_after_flag (hasSW : Bool)
    (cacheNamesResult : Option CacheNames) (keyList : List String)
    (s : UpdateState) (h : s.pwaUpdateNeeded = true) :
    checkUpdateStatus hasSW cacheNamesResult keyList s = s := by
  rw [checkUpdateStatus, if_neg]
  intro hc
  rw [h] at hc
  exact hc.2 rfl

/-- Witness for claim C2 at a concrete flagged state: a repeat call that
again sees a qualifying newer version changes nothing. -/
theorem checkUpdateStatus_noop_after_flag_witness :
    checkUpdateStatus true
      (some ⟨"kiwix-v1", "kiwix-assets", false⟩) ["kiwix-v2"]
      { initUpdateState with pwaUpdateNeeded := true }
      = { initUpdateState with pwaUpdateNeeded := true } :=
  checkUpdateStatus_noop_after_flag true
    (some ⟨"kiwix-v1", "kiwix-assets", false⟩) ["kiwix-v2"]
    { initUpdateState with pwaUpdateNeeded := true } (by decide)

/-- If the prefix starts the string, removing its first occurrence just
drops it. -/
theorem listRemoveFirst_of_leading (pat s : List Char)
    (h : pat.isPrefixOf s = true) :
    listRemoveFirst pat s = s.drop pat.length := by
  cases s with
  | nil =>
    cases pat with
    | nil => rfl
    | cons p ps => simp [List.isPrefixOf] at h
  | cons c rest =>
    rw [listRemoveFirst, if_pos h]

/-- Claim C3: the per-key behaviour of the checkUpdateStatus scan.  A key
equal to the current app or assets cache identifier is skipped; a key
that does not start with the version prefix derived from the app cache
identifier is skipped; any remaining key sets the pending-update flag,
reveals the update banner, and writes the version suffix (the key with
the prefix removed) into the persistent message area. -/
theorem processKey_cases (cn : CacheNames) (st : UpdateState) (key : String) :
    (key = cn.app ∨ key = cn.assets → processKey cn st key = st) ∧
    (¬ (key = cn.app ∨ key = cn.assets) →
      (cachePrefixOf cn.app).toList.isPrefixOf key.toList = false →
      processKey cn st key = st) ∧
    (¬ (key = cn.app ∨ key = cn.assets) →
      (cachePrefixOf cn.app).toList.isPrefixOf key.toList = true →
      processKey cn st key =
        { st with
          pwaUpdateNeeded := true
          updateAlertDisplay := "block"
          persistentMessage :=
            "Version "
              ++ String.mk (key.toList.drop (cachePrefixOf cn.app).toList.length)
              ++ " is ready to install. (Re-launch app to install.)" }) := by
  refine ⟨?_, ?_, ?_⟩
  · intro h
    rw [processKey, if_pos h]
  · intro h hp
    rw [processKey, if_neg h, if_pos hp]
  · intro h hp
    rw [processKey, if_neg h, if_neg (by rw [hp]; exact fun hc => Bool.noConfusion hc)]
    rw [listRemoveFirst_of_leading _ _ hp]

/-- Witness for claim C3 with a concrete cache-name record and one key of
each kind: the app key itself is skipped, a foreign key is skipped, and a
qualifying key flags the update with its version suffix displayed. -/
theorem processKey_cases_witness :
    processKey ⟨"kiwix-v1", "kiwix-assets", false⟩ initUpdateState "kiwix-v1"
      = initUpdateState ∧
    processKey ⟨"kiwix-v1", "kiwix-assets", false⟩ initUpdateState "other-v2"
      = initUpdateState ∧
    processKey ⟨"kiwix-v1", "kiwix-assets", false⟩ initUpdateState "kiwix-v2"
      = { initUpdateState with
          pwaUpdateNeeded := true
          updateAlertDisplay := "block"
          persistentMessage :=
            "Version 2 is ready to install. (Re-launch app to install.)" } := by
  refine ⟨?_, ?_, ?_⟩
  · exact (processKey_cases ⟨"kiwix-v1", "kiwix-assets", false⟩ initUpdateState
      "kiwix-v1").1 (Or.inl (by decide))
  · exact (processKey_cases ⟨"kiwix-v1", "kiwix-assets", false⟩ initUpdateState
      "other-v2").2.1 (by decide) (by decide)
  · have h := (processKey_cases ⟨"kiwix-v1", "kiwix-assets", false⟩ initUpdateState
      "kiwix-v2").2.2 (by decide) (by decide)
    rw [h]
    decide

/-- A key that is skipped leaves the scan state unchanged, so a scan all
of whose keys are skipped is the identity. -/
theorem foldl_processKey_skipped (cn : CacheNames) (keys : List String)
    (st : UpdateState)
    (h : ∀ key ∈ keys, key = cn.app ∨ key = cn.assets ∨
      (cachePrefixOf cn.app).toList.isPrefixOf key.toList = false) :
    keys.foldl (processKey cn) st = st := by
  induction keys generalizing st with
  | nil => rfl
  | cons k ks ih =>
    have hk := h k (List.mem_cons_self k ks)
    have hstep : processKey cn st k = st := by
      rcases hk with hk | hk | hk
      · exact (processKey_cases cn st k).1 (Or.inl hk)
      · exact (processKey_cases cn st k).1 (Or.inr hk)
      · by_cases he : k = cn.app ∨ k = cn.assets
        · exact (processKey_cases cn st k).1 he
        · exact (processKey_cases cn st k).2.1 he hk
    rw [List.foldl_cons, hstep]
    exact ih st (fun key hkey => h key (List.mem_cons_of_mem k hkey))

/-- Claim C9: when checkUpdateStatus proceeds to a successful settings
retrieval (a cache-name record with no error marker), it hides the
update banner before scanning, so if no live key qualifies as evidence
of a newer version the banner ends hidden, whatever it was before. -/
theorem checkUpdateStatus_hides_banner (hasSW : Bool) (cn : CacheNames)
    (keyList : List String) (s : UpdateState)
    (hsw : hasSW = true) (hflag : s.pwaUpdateNeeded = false)
    (herr : cn.error = false)
    (hkeys : ∀ key ∈ keyList, key = cn.app ∨ key = cn.assets ∨
      (cachePrefixOf cn.app).toList.isPrefixOf key.toList = false) :
    (checkUpdateStatus hasSW (some cn) keyList s).updateAlertDisplay = "none" := by
  rw [checkUpdateStatus,
    if_pos (by rw [hsw, hflag]; exact ⟨rfl, fun hc => Bool.noConfusion hc⟩)]
  simp only [Option.elim]
  rw [if_neg (by rw [herr]; exact fun hc => Bool.noConfusion hc)]
  rw [foldl_processKey_skipped cn keyList _ hkeys]

/-- Witness for claim C9: with a previously revealed banner and a key
list containing only the current identifiers and a foreign key, the
banner ends hidden. -/
theorem checkUpdateStatus_hides_banner_witness :
    (checkUpdateStatus true (some ⟨"kiwix-v1", "kiwix-assets", false⟩)
      ["kiwix-v1", "kiwix-assets", "zimit-v3"]
      { initUpdateState with updateAlertDisplay := "block" }).updateAlertDisplay
      = "none" :=
  checkUpdateStatus_hides_banner true ⟨"kiwix-v1", "kiwix-assets", false⟩
    ["kiwix-v1", "kiwix-assets", "zimit-v3"]
    { initUpdateState with updateAlertDisplay := "block" }
    rfl (by decide) rfl (by decide)

/-- Once the one-time flag is set, further download alerts attach no
listener. -/
theorem runDownloadCalls_listeners_stable
    (calls : List (String × DownloadDirective × String)) (s : DownloadState)
    (h : s.downloadAlertSetup = true) :
    (runDownloadCalls calls s).downloadDismissListeners
      = s.downloadDismissListeners ∧
    (runDownloadCalls calls s).downloadAlertSetup = true := by
  induction calls generalizing s with
  | nil => exact ⟨rfl, h⟩
  | cons c cs ih =>
    have hstep : (displayFileDownloadAlert c.1 c.2.1 c.2.2 s).downloadDismissListeners
        = s.downloadDismissListeners := by
      simp [displayFileDownloadAlert, h]
    have hsetup : (displayFileDownloadAlert c.1 c.2.1 c.2.2 s).downloadAlertSetup
        = true := rfl
    have := ih (displayFileDownloadAlert c.1 c.2.1 c.2.2 s) hsetup
    exact ⟨by rw [runDownloadCalls] at this ⊢; rw [List.foldl_cons, this.1, hstep],
      by rw [runDownloadCalls] at this ⊢; rw [List.foldl_cons]; exact this.2⟩

/-- checkUpdateStatus never touches the update banner dismiss wiring. -/
theorem checkUpdateStatus_listeners (hasSW : Bool)
    (cacheNamesResult : Option CacheNames) (keyList : List String)
    (s : UpdateState) :
    (checkUpdateStatus hasSW cacheNamesResult keyList s).updateDismissListeners
      = s.updateDismissListeners := by
  have hfold : ∀ (cn : CacheNames) (keys : List String) (st : UpdateState),
      (keys.foldl (processKey cn) st).updateDismissListeners
        = st.updateDismissListeners := by
    intro cn keys
    induction keys with
    | nil => intro st; rfl
    | cons k ks ih =>
      intro st
      rw [List.foldl_cons, ih]
      rw [processKey]
      by_cases h1 : k = cn.app ∨ k = cn.assets
      · rw [if_pos h1]
      · rw [if_neg h1]
        by_cases h2 : (cachePrefixOf cn.app).toList.isPrefixOf k.toList = false
        · rw [if_pos h2]
        · rw [if_neg h2]
  rw [checkUpdateStatus]
  by_cases hg : hasSW ∧ ¬ s.pwaUpdateNeeded
  · rw [if_pos hg]
    cases cacheNamesResult with
    | none => rfl
    | some cn =>
      simp only [Option.elim]
      by_cases he : cn.error
      · simp only [if_pos he]
      · simp only [if_neg he]
        rw [hfold]
  · rw [if_neg hg]

/-- Claim C8: over a whole session, the download alert dismiss listener
is attached exactly once however many times displayFileDownloadAlert is
called (it is wired on the first call, guarded by the one-time flag),
and the update banner dismiss listener, wired once at module load, stays
attached exactly once however many times checkUpdateStatus is called. -/
theorem dismiss_listeners_once
    (calls : List (String × DownloadDirective × String))
    (ucalls : List (Bool × Option CacheNames × List String))
    (hne : calls ≠ []) :
    (runDownloadCalls calls initDownloadState).downloadDismissListeners = 1 ∧
    (runUpdateCalls ucalls (attachUpdateAlertDismiss true initUpdateState)).updateDismissListeners
      = 1 := by
  constructor
  · cases calls with
    | nil => exact absurd rfl hne
    | cons c cs =>
      rw [runDownloadCalls, List.foldl_cons]
      have h1 : (displayFileDownloadAlert c.1 c.2.1 c.2.2 initDownloadState).downloadDismissListeners
          = 1 := rfl
      have h2 : (displayFileDownloadAlert c.1 c.2.1 c.2.2 initDownloadState).downloadAlertSetup
          = true := rfl
      have := runDownloadCalls_listeners_stable cs
        (displayFileDownloadAlert c.1 c.2.1 c.2.2 initDownloadState) h2
      rw [runDownloadCalls] at this
      rw [this.1, h1]
  · have hstable : ∀ (us : List (Bool × Option CacheNames × List String))
        (s : UpdateState),
        ((us.foldl (fun st c => checkUpdateStatus c.1 c.2.1 c.2.2 st) s)).updateDismissListeners
          = s.updateDismissListeners := by
      intro us
      induction us with
      | nil => intro s; rfl
      | cons u urest ih =>
        intro s
        rw [List.foldl_cons, ih, checkUpdateStatus_listeners]
    rw [runUpdateCalls, hstable]
    rfl

/-- Witness for claim C8: one download alert call and one update check
leave exactly one listener on each dismiss button. -/
theorem dismiss_listeners_once_witness :
    (runDownloadCalls [("/a/b.txt", DownloadDirective.fromTitle, "")]
      initDownloadState).downloadDismissListeners = 1 ∧
    (runUpdateCalls [(true, none, [])]
      (attachUpdateAlertDismiss true initUpdateState)).updateDismissListeners = 1 :=
  dismiss_listeners_once [("/a/b.txt", DownloadDirective.fromTitle, "")]
    [(true, none, [])] (by decide)

/-! ## Asset injector (feedNodeWithBlob) -/

/-- Observable actions of feedNodeWithBlob: invoking the optional
callback (with its argument), setting the node attribute, registering a
release of the object URL on the load event of the node, and logging a
decode failure. -/
inductive FeedEvent where
  | callbackInvoke : Option String → FeedEvent
  | setAttr : String → String → FeedEvent
  | addLoadRevoke : String → FeedEvent
  | logDecodeError : FeedEvent
  deriving DecidableEq

/-- The trace of one feedNodeWithBlob call: the events performed
synchronously before the function returns, and the events performed
later from the decode-promise handlers. -/
structure FeedResult where
  syncEvents : List FeedEvent
  asyncEvents : List FeedEvent
  deriving DecidableEq

/-- Whether the pattern occurs as a contiguous substring. -/
def hasSubstring (pat : List Char) : List Char → Bool
  | [] => pat.isEmpty
  | c :: rest => pat.isPrefixOf (c :: rest) || hasSubstring pat rest

/-- Translation of the test `/image\/webp/i.test(mimeType)`:
case-insensitive containment of the lowercase pattern. -/
def isWebpMime (mimeType : String) : Bool :=
  hasSubstring ("image/webp".toList) (mimeType.toList.map Char.toLower)

/-- Model of `URL.createObjectURL(blob)`: the browser returns a blob URL
built from a fresh identifier chosen by it; the identifier is a
parameter of the model. -/
def createObjectURL (uuid : String) : String := "blob:" ++ uuid

/-- Model of feedNodeWithBlob.  With an initialized decode engine and a
webp MIME type, the decode runs asynchronously: on success the callback
(if provided) receives the decoded URI and then the attribute is set; on
failure the error is logged and the callback (if provided) is invoked
with no argument, without setting the attribute and without throwing.
Otherwise a blob object URL is created and, synchronously before the
function returns, the callback (if provided) receives it, a release of
the URL is registered on the load event, and the attribute is set. -/
def feedNodeWithBlob (webpMachineActive : Bool) (nodeAttribute : String)
    (mimeType : String) (hasCallback : Bool)
    (decodeResult : Except String String) (uuid : String) : FeedResult :=
  if webpMachineActive ∧ isWebpMime mimeType = true then
    match decodeResult with
    | Except.ok uri =>
      { syncEvents := []
        asyncEvents :=
          (if hasCallback then [FeedEvent.callbackInvoke (some uri)] else [])
            ++ [FeedEvent.setAttr nodeAttribute uri] }
    | Except.error _ =>
      { syncEvents := []
        asyncEvents :=
          FeedEvent.logDecodeError ::
            (if hasCallback then [FeedEvent.callbackInvoke none] else []) }
  else
    { syncEvents :=
        (if hasCallback then [FeedEvent.callbackInvoke (some (createObjectURL uuid))] else [])
          ++ [FeedEvent.addLoadRevoke (createObjectURL uuid),
              FeedEvent.setAttr nodeAttribute (createObjectURL uuid)]
      asyncEvents := [] }

/-- A blob object URL is never the empty string. -/
theorem createObjectURL_ne_empty (uuid : String) : createObjectURL uuid ≠ "" := by
  intro h
  have hd : (createObjectURL uuid).data = ("" : String).data := congrArg String.data h
  rw [createObjectURL, String.data_append] at hd
  exact List.noConfusion hd

/-- Claim C4: when the MIME type is not a legacy (webp) image or no
decode engine is initialized, the whole trace is synchronous (nothing
happens after return): the callback, if provided, is invoked exactly
once, first, with the non-empty object URL; exactly one release of that
URL is registered on the load event; and the attribute is set exactly
once, to that same URL. -/
theorem feedNodeWithBlob_sync (webpMachineActive : Bool) (nodeAttribute : String)
    (mimeType : String) (hasCallback : Bool)
    (decodeResult : Except String String) (uuid : String)
    (h : ¬ (webpMachineActive ∧ isWebpMime mimeType = true)) :
    (feedNodeWithBlob webpMachineActive nodeAttribute mimeType hasCallback
        decodeResult uuid).asyncEvents = [] ∧
    (feedNodeWithBlob webpMachineActive nodeAttribute mimeType hasCallback
        decodeResult uuid).syncEvents =
      (if hasCallback then [FeedEvent.callbackInvoke (some (createObjectURL uuid))] else [])
        ++ [FeedEvent.addLoadRevoke (createObjectURL uuid),
            FeedEvent.setAttr nodeAttribute (createObjectURL uuid)] ∧
    createObjectURL uuid ≠ "" := by
  rw [feedNodeWithBlob.eq_def, if_neg h]
  exact ⟨rfl, rfl, createObjectURL_ne_empty uuid⟩

/-- Witness for claim C4: a png image with no decode engine gives the
callback the fresh blob URL synchronously, registers its release, and
sets the attribute to it. -/
theorem feedNodeWithBlob_sync_witness :
    (feedNodeWithBlob false "src" "image/png" true
        (Except.ok "unused") "abcd").asyncEvents = [] ∧
    (feedNodeWithBlob false "src" "image/png" true
        (Except.ok "unused") "abcd").syncEvents =
      (if true then [FeedEvent.callbackInvoke (some (createObjectURL "abcd"))] else [])
        ++ [FeedEvent.addLoadRevoke (createObjectURL "abcd"),
            FeedEvent.setAttr "src" (createObjectURL "abcd")] ∧
    createObjectURL "abcd" ≠ "" :=
  feedNodeWithBlob_sync false "src" "image/png" true (Except.ok "unused") "abcd"
    (by decide)

/-- Claim C5: with an initialized decode engine and a webp MIME type,
nothing happens synchronously; on decode failure the failure is logged,
the attribute is never set, no error escapes (the model is a total
function) and the callback, if provided, is invoked with no argument
exactly once; on decode success the callback, if provided, is invoked
exactly once with the decoded URI and then the attribute is set. -/
theorem feedNodeWithBlob_webp (webpMachineActive : Bool) (nodeAttribute : String)
    (mimeType : String) (hasCallback : Bool)
    (decodeResult : Except String String) (uuid : String)
    (hw : webpMachineActive = true) (hm : isWebpMime mimeType = true) :
    (∀ e, decodeResult = Except.error e →
      feedNodeWithBlob webpMachineActive nodeAttribute mimeType hasCallback
          decodeResult uuid =
        ⟨[], FeedEvent.logDecodeError ::
          (if hasCallback then [FeedEvent.callbackInvoke none] else [])⟩ ∧
      (∀ a v, FeedEvent.setAttr a v ∉
        (feedNodeWithBlob webpMachineActive nodeAttribute mimeType hasCallback
          decodeResult uuid).syncEvents ++
        (feedNodeWithBlob webpMachineActive nodeAttribute mimeType hasCallback
          decodeResult uuid).asyncEvents)) ∧
    (∀ uri, decodeResult = Except.ok uri →
      feedNodeWithBlob webpMachineActive nodeAttribute mimeType hasCallback
          decodeResult uuid =
        ⟨[], (if hasCallback then [FeedEvent.callbackInvoke (some uri)] else [])
          ++ [FeedEvent.setAttr nodeAttribute uri]⟩) := by
  constructor
  · intro e he
    subst he
    have hres : feedNodeWithBlob webpMachineActive nodeAttribute mimeType hasCallback
        (Except.error e) uuid =
        ⟨[], FeedEvent.logDecodeError ::
          (if hasCallback then [FeedEvent.callbackInvoke none] else [])⟩ := by
      rw [feedNodeWithBlob.eq_def, if_pos ⟨hw, hm⟩]
    refine ⟨hres, ?_⟩
    intro a v
    rw [hres]
    cases hasCallback <;> simp
  · intro uri hu
    subst hu
    rw [feedNodeWithBlob.eq_def, if_pos ⟨hw, hm⟩]

/-- Witness for claim C5: with the decode engine active and a webp MIME
type, a failing decode logs and signals the callback with no argument
and never sets the attribute; a succeeding decode hands the URI to the
callback and then sets the attribute. -/
theorem feedNodeWithBlob_webp_witness :
    feedNodeWithBlob true "src" "image/webp" true
        (Except.error "decode failed") "u" =
      ⟨[], [FeedEvent.logDecodeError, FeedEvent.callbackInvoke none]⟩ ∧
    feedNodeWithBlob true "src" "IMAGE/WebP" true
        (Except.ok "data:image/png;base64,AA") "u" =
      ⟨[], [FeedEvent.callbackInvoke (some "data:image/png;base64,AA"),
            FeedEvent.setAttr "src" "data:image/png;base64,AA"]⟩ :=
  ⟨((feedNodeWithBlob_webp true "src" "image/webp" true
      (Except.error "decode failed") "u" rfl (by decide)).1
      "decode failed" rfl).1,
   (feedNodeWithBlob_webp true "src" "IMAGE/WebP" true
      (Except.ok "data:image/png;base64,AA") "u" rfl (by decide)).2
      "data:image/png;base64,AA" rfl⟩

/-! ## Theme engine (applyAppTheme) -/

/-- A stylesheet link element attached to the head of the embedded
document, keeping the attributes applyAppTheme inspects. -/
structure LinkEl where
  id : String
  href : String
  deriving DecidableEq

/-- The part of the page state read and written by applyAppTheme.  The
embedded document is `none` when the iframe contentDocument is not
accessible; otherwise it carries the stylesheet link elements of its
head and its title.  `helpPanels` associates help-panel element ids to
their display style.  `viewArticleListeners` counts click listeners
attached by showReturnLink. -/
structure ThemeState where
  htmlClasses : List String
  htmlDatasetTheme : String
  footerClasses : List String
  iframeClasses : List String
  doc : Option (List LinkEl)
  docTitle : String
  helpPanels : List (String × String)
  configActive : Bool
  viewArticleDisplay : String
  viewArticleListeners : Nat
  deriving DecidableEq

/-- DOMTokenList.add: appends the token unless it is already present. -/
def classAdd (l : List String) (tok : String) : List String :=
  if tok ∈ l then l else l ++ [tok]

/-- DOMTokenList.remove: removes the token. -/
def classRemove (l : List String) (tok : String) : List String :=
  l.filter (fun c => c ≠ tok)

/-- Setting the display style of the element returned by
document.getElementById: updates the first entry with that id, if any. -/
def setPanelDisplay : List (String × String) → String → String → List (String × String)
  | [], _, _ => []
  | p :: rest, k, v =>
    if p.1 = k then (k, v) :: rest else p :: setPanelDisplay rest k v

/-- `doc.getElementById('kiwixJSTheme')`: the first link element with
that id, when the document is accessible. -/
def findKiwixSheet (doc : Option (List LinkEl)) : Option LinkEl :=
  doc.elim none (fun links => links.find? (fun l => l.id == "kiwixJSTheme"))

/-- Translation of `kiwixJSSheet.href.search('kiwixJS' + contentTheme + '.css')`
being a hit: the filename fragment occurs in the href.  (The dot of
`.css` is a regex wildcard in the source; the hrefs compared against it
contain the literal fragment, so literal containment is used.) -/
def fragMatches (contentTheme : String) (href : String) : Bool :=
  hasSubstring ("kiwixJS" ++ contentTheme ++ ".css").toList href.toList

/-- The attached-sheet test of applyAppTheme: false when there is no
sheet, else whether its href contains the filename fragment. -/
def sheetMatchesTheme (contentTheme : String) (sheet : Option LinkEl) : Bool :=
  sheet.elim false (fun sh => fragMatches contentTheme sh.href)

/-- `kiwixJSSheet.parentNode.removeChild(kiwixJSSheet)`: removes the
found element from the head. -/
def removeSheet (doc : Option (List LinkEl)) (sheet : Option LinkEl) :
    Option (List LinkEl) :=
  match doc, sheet with
  | some links, some sh => some (links.erase sh)
  | _, _ => doc

/-- `doc.head.appendChild(link)`. -/
def appendSheet (doc : Option (List LinkEl)) (l : LinkEl) : Option (List LinkEl) :=
  doc.elim none (fun links => some (links ++ [l]))

/-- Translation of
`(window.location.protocol + '//' + window.location.host + window.location.pathname).replace(/\/[^/]*$/, '')`
applied to the combined location string: truncates at the last slash. -/
def locationPrefixOf (loc : String) : String :=
  if '/' ∈ loc.toList then String.mk (dropFromLastChar '/' loc.toList) else loc

/-- The stylesheet link element injected by applyAppTheme. -/
def newSheet (loc contentTheme : String) : LinkEl :=
  ⟨"kiwixJSTheme", locationPrefixOf loc ++ "/css/kiwixJS" ++ contentTheme ++ ".css"⟩

/-- The placeholder title of the dummy article document. -/
def placeholderTitle : String := "Placeholder for injecting an article into the iframe"

/-- Model of applyAppTheme.  `loc` is the combined
protocol-host-pathname string of the window location.  The previous
theme is read from the dataset marker; the old appTheme class is removed
from the shell root and the old contentTheme class (or the `_light`
sentinel) from the footer; the new ones are added; the dataset marker is
updated; help panels are toggled; a changed contentTheme removes the old
iframe class and the attached sheet; a requested contentTheme that is
not already attached adds the iframe class and, when the document is
accessible, injects the stylesheet link; finally, in the configuration
navigation state with a real document loaded, the return link is shown
and its click handler attached. -/
def applyAppTheme (loc theme : String) (s : ThemeState) : ThemeState :=
  let oldTheme := s.htmlDatasetTheme
  let sheet := findKiwixSheet s.doc
  let appTheme := appThemeOf theme
  let contentTheme := contentThemeOf theme
  let oldAppTheme := appThemeOf oldTheme
  let oldContentTheme := contentThemeOf oldTheme
  let html1 := if oldAppTheme ≠ "" then classRemove s.htmlClasses oldAppTheme
    else s.htmlClasses
  let footer1 := classRemove s.footerClasses
    (if oldContentTheme = "" then "_light" else oldContentTheme)
  let html2 := if appTheme ≠ "" then classAdd html1 appTheme else html1
  let footer2 := classAdd footer1 (if contentTheme = "" then "_light" else contentTheme)
  let help1 := setPanelDisplay s.helpPanels (oldTheme ++ "-help") "none"
  let help2 := setPanelDisplay help1 (theme ++ "-help") "block"
  let removeOld := oldContentTheme ≠ "" ∧ oldContentTheme ≠ contentTheme
  let iframe1 := if removeOld then classRemove s.iframeClasses oldContentTheme
    else s.iframeClasses
  let doc1 := if removeOld then removeSheet s.doc sheet else s.doc
  let applyNew := contentTheme ≠ "" ∧ sheetMatchesTheme contentTheme sheet = false
  let iframe2 := if applyNew then classAdd iframe1 contentTheme else iframe1
  let doc2 := if applyNew then appendSheet doc1 (newSheet loc contentTheme) else doc1
  let showReturn := s.configActive ∧ s.doc.isSome ∧ s.docTitle ≠ placeholderTitle
  { s with
    htmlClasses := html2
    htmlDatasetTheme := theme
    footerClasses := footer2
    iframeClasses := iframe2
    doc := doc2
    helpPanels := help2
    viewArticleDisplay := if showReturn then "block" else s.viewArticleDisplay
    viewArticleListeners :=
      if showReturn then s.viewArticleListeners + 1 else s.viewArticleListeners }

/-- The stylesheet link elements of the embedded document head ([] when
inaccessible). -/
def docLinks (s : ThemeState) : List LinkEl :=
  s.doc.elim [] (fun links => links)

/-- How many attached stylesheet links match the filename fragment of
the given contentTheme. -/
def countMatchingSheets (contentTheme : String) (doc : Option (List LinkEl)) : Nat :=
  (doc.elim [] (fun links => links)).countP (fun l => fragMatches contentTheme l.href)

/-! ## Class-list and sheet lemmas -/

/-- Membership after DOMTokenList.add. -/
theorem mem_classAdd (l : List String) (a c : String) :
    c ∈ classAdd l a ↔ c ∈ l ∨ c = a := by
  rw [classAdd]
  by_cases h : a ∈ l
  · rw [if_pos h]
    constructor
    · exact Or.inl
    · rintro (hc | rfl)
      · exact hc
      · exact h
  · rw [if_neg h]
    simp

/-- Membership after DOMTokenList.remove. -/
theorem mem_classRemove (l : List String) (a c : String) :
    c ∈ classRemove l a ↔ c ∈ l ∧ c ≠ a := by
  simp [classRemove]

/-- The added token is present. -/
theorem classAdd_self_mem (l : List String) (a : String) : a ∈ classAdd l a :=
  (mem_classAdd l a a).2 (Or.inr rfl)

/-- Adding a token already present changes nothing. -/
theorem classAdd_eq_of_mem {l : List String} {a : String} (h : a ∈ l) :
    classAdd l a = l := by
  rw [classAdd, if_pos h]

/-- DOMTokenList.remove keeps the list duplicate-free. -/
theorem nodup_classRemove (l : List String) (a : String) (h : l.Nodup) :
    (classRemove l a).Nodup :=
  h.filter _

/-- DOMTokenList.add keeps the list duplicate-free. -/
theorem nodup_classAdd (l : List String) (a : String) (h : l.Nodup) :
    (classAdd l a).Nodup := by
  rw [classAdd]
  by_cases ha : a ∈ l
  · rw [if_pos ha]
    exact h
  · rw [if_neg ha]
    simp [List.nodup_append, h, ha]

/-- A second display update on the same element overwrites the first. -/
theorem setPanelDisplay_overwrite (l : List (String × String)) (k v w : String) :
    setPanelDisplay (setPanelDisplay l k v) k w = setPanelDisplay l k w := by
  induction l with
  | nil => rfl
  | cons p rest ih =>
    by_cases h : p.1 = k <;> simp [setPanelDisplay, h, ih]

/-- The pattern occurs in any list ending with it. -/
theorem hasSubstring_suffix (pat p : List Char) :
    hasSubstring pat (p ++ pat) = true := by
  induction p with
  | nil =>
    rw [List.nil_append]
    cases pat with
    | nil => rfl
    | cons c rest =>
      have hpre : (c :: rest).isPrefixOf (c :: rest) = true :=
        List.isPrefixOf_iff_prefix.mpr (List.prefix_refl _)
      simp [hasSubstring, hpre]
  | cons q qs ih =>
    simp [hasSubstring, ih]

/-- The injected stylesheet link always matches the filename fragment of
the contentTheme it was built for. -/
theorem fragMatches_newSheet (loc ct : String) :
    fragMatches ct (newSheet loc ct).href = true := by
  rw [fragMatches, newSheet]
  have hsplit : (locationPrefixOf loc ++ "/css/kiwixJS" ++ ct ++ ".css").toList
      = (locationPrefixOf loc ++ "/css/").toList
        ++ ("kiwixJS" ++ ct ++ ".css").toList := by
    have h5 : ("/css/kiwixJS" : String) = "/css/" ++ "kiwixJS" := rfl
    simp only [String.toList, h5, String.data_append, List.append_assoc]
  rw [hsplit]
  exact hasSubstring_suffix _ _

/-- With no element of that id, getElementById finds nothing. -/
theorem findKiwixSheet_none_of_noId (links : List LinkEl)
    (h : ∀ l ∈ links, l.id ≠ "kiwixJSTheme") :
    findKiwixSheet (some links) = none := by
  rw [findKiwixSheet]
  simp only [Option.elim]
  rw [List.find?_eq_none]
  intro l hl
  simp [h l hl]

/-- After appending the injected link to a head without one,
getElementById finds exactly the injected link. -/
theorem findKiwixSheet_append (links : List LinkEl) (nw : LinkEl)
    (hid : nw.id = "kiwixJSTheme") (h : ∀ l ∈ links, l.id ≠ "kiwixJSTheme") :
    findKiwixSheet (some (links ++ [nw])) = some nw := by
  rw [findKiwixSheet]
  simp only [Option.elim]
  induction links with
  | nil => simp [List.find?, hid]
  | cons a as ih =>
    have ha := h a (List.mem_cons_self a as)
    have ha2 : (a.id == "kiwixJSTheme") = false := by simp [ha]
    have := ih (fun l hl => h l (List.mem_cons_of_mem a hl))
    simp [List.find?, ha2, this]

/-! ## Field equations of applyAppTheme -/

/-- The dataset marker after applyAppTheme is the applied selector. -/
theorem applyAppTheme_htmlDatasetTheme (loc t : String) (s : ThemeState) :
    (applyAppTheme loc t s).htmlDatasetTheme = t := rfl

/-- The shell-root class list after applyAppTheme. -/
theorem applyAppTheme_htmlClasses (loc t : String) (s : ThemeState) :
    (applyAppTheme loc t s).htmlClasses =
      (if appThemeOf t ≠ "" then
        classAdd
          (if appThemeOf s.htmlDatasetTheme ≠ "" then
            classRemove s.htmlClasses (appThemeOf s.htmlDatasetTheme)
          else s.htmlClasses)
          (appThemeOf t)
      else
        (if appThemeOf s.htmlDatasetTheme ≠ "" then
          classRemove s.htmlClasses (appThemeOf s.htmlDatasetTheme)
        else s.htmlClasses)) := rfl

/-- The footer class list after applyAppTheme. -/
theorem applyAppTheme_footerClasses (loc t : String) (s : ThemeState) :
    (applyAppTheme loc t s).footerClasses =
      classAdd
        (classRemove s.footerClasses
          (if contentThemeOf s.htmlDatasetTheme = "" then "_light"
           else contentThemeOf s.htmlDatasetTheme))
        (if contentThemeOf t = "" then "_light" else contentThemeOf t) := rfl

/-- The iframe class list after applyAppTheme. -/
theorem applyAppTheme_iframeClasses (loc t : String) (s : ThemeState) :
    (applyAppTheme loc t s).iframeClasses =
      (if contentThemeOf t ≠ "" ∧
          sheetMatchesTheme (contentThemeOf t) (findKiwixSheet s.doc) = false then
        classAdd
          (if contentThemeOf s.htmlDatasetTheme ≠ "" ∧
              contentThemeOf s.htmlDatasetTheme ≠ contentThemeOf t then
            classRemove s.iframeClasses (contentThemeOf s.htmlDatasetTheme)
          else s.iframeClasses)
          (contentThemeOf t)
      else
        (if contentThemeOf s.htmlDatasetTheme ≠ "" ∧
            contentThemeOf s.htmlDatasetTheme ≠ contentThemeOf t then
          classRemove s.iframeClasses (contentThemeOf s.htmlDatasetTheme)
        else s.iframeClasses)) := rfl

/-- The embedded-document head after applyAppTheme. -/
theorem applyAppTheme_doc (loc t : String) (s : ThemeState) :
    (applyAppTheme loc t s).doc =
      (if contentThemeOf t ≠ "" ∧
          sheetMatchesTheme (contentThemeOf t) (findKiwixSheet s.doc) = false then
        appendSheet
          (if contentThemeOf s.htmlDatasetTheme ≠ "" ∧
              contentThemeOf s.htmlDatasetTheme ≠ contentThemeOf t then
            removeSheet s.doc (findKiwixSheet s.doc)
          else s.doc)
          (newSheet loc (contentThemeOf t))
      else
        (if contentThemeOf s.htmlDatasetTheme ≠ "" ∧
            contentThemeOf s.htmlDatasetTheme ≠ contentThemeOf t then
          removeSheet s.doc (findKiwixSheet s.doc)
        else s.doc)) := rfl

/-- The help-panel displays after applyAppTheme. -/
theorem applyAppTheme_helpPanels (loc t : String) (s : ThemeState) :
    (applyAppTheme loc t s).helpPanels =
      setPanelDisplay
        (setPanelDisplay s.helpPanels (s.htmlDatasetTheme ++ "-help") "none")
        (t ++ "-help") "block" := rfl

/-! ## Theorem for claim C6 -/

/-- Claim C6: from any starting shell and footer state, applying theme
`dark_invert` and then theme `light` leaves the shell root carrying
class `light` and not `dark`, leaves the footer carrying the `_light`
sentinel class and not `_invert`, and leaves the dataset theme marker
equal to `light`. -/
theorem applyAppTheme_darkInvert_then_light (loc1 loc2 : String) (s : ThemeState) :
    "light" ∈ (applyAppTheme loc2 "light" (applyAppTheme loc1 "dark_invert" s)).htmlClasses ∧
    "dark" ∉ (applyAppTheme loc2 "light" (applyAppTheme loc1 "dark_invert" s)).htmlClasses ∧
    "_light" ∈ (applyAppTheme loc2 "light" (applyAppTheme loc1 "dark_invert" s)).footerClasses ∧
    "_invert" ∉ (applyAppTheme loc2 "light" (applyAppTheme loc1 "dark_invert" s)).footerClasses ∧
    (applyAppTheme loc2 "light" (applyAppTheme loc1 "dark_invert" s)).htmlDatasetTheme
      = "light" := by
  have hds : (applyAppTheme loc1 "dark_invert" s).htmlDatasetTheme = "dark_invert" := rfl
  have h1 : appThemeOf "dark_invert" = "dark" := by decide
  have h2 : appThemeOf "light" = "light" := by decide
  have h3 : contentThemeOf "dark_invert" = "_invert" := by decide
  have h4 : contentThemeOf "light" = "" := by decide
  have hhtml : (applyAppTheme loc2 "light" (applyAppTheme loc1 "dark_invert" s)).htmlClasses
      = classAdd (classRemove (applyAppTheme loc1 "dark_invert" s).htmlClasses "dark")
          "light" := by
    rw [applyAppTheme_htmlClasses, hds, h1, h2,
      if_pos (show ("light" : String) ≠ "" by decide),
      if_pos (show ("dark" : String) ≠ "" by decide)]
  have hfoot : (applyAppTheme loc2 "light" (applyAppTheme loc1 "dark_invert" s)).footerClasses
      = classAdd (classRemove (applyAppTheme loc1 "dark_invert" s).footerClasses "_invert")
          "_light" := by
    rw [applyAppTheme_footerClasses, hds, h3, h4,
      if_neg (show ¬ ("_invert" : String) = "" by decide),
      if_pos (rfl : ("" : String) = "")]
  refine ⟨?_, ?_, ?_, ?_, rfl⟩
  · rw [hhtml]
    exact classAdd_self_mem _ _
  · rw [hhtml]
    intro hmem
    rcases (mem_classAdd _ _ _).1 hmem with hc | hc
    · exact ((mem_classRemove _ _ _).1 hc).2 rfl
    · exact absurd hc (by decide)
  · rw [hfoot]
    exact classAdd_self_mem _ _
  · rw [hfoot]
    intro hmem
    rcases (mem_classAdd _ _ _).1 hmem with hc | hc
    · exact ((mem_classRemove _ _ _).1 hc).2 rfl
    · exact absurd hc (by decide)

/-! ## Idempotence of applyAppTheme (claim C7) -/

/-- applyAppTheme keeps the shell-root class list duplicate-free. -/
theorem applyAppTheme_htmlClasses_nodup (loc t : String) (s : ThemeState)
    (h : s.htmlClasses.Nodup) : (applyAppTheme loc t s).htmlClasses.Nodup := by
  have hbase : (if appThemeOf s.htmlDatasetTheme ≠ "" then
      classRemove s.htmlClasses (appThemeOf s.htmlDatasetTheme)
    else s.htmlClasses).Nodup := by
    by_cases h2 : appThemeOf s.htmlDatasetTheme ≠ ""
    · rw [if_pos h2]
      exact nodup_classRemove _ _ h
    · rw [if_neg h2]
      exact h
  rw [applyAppTheme_htmlClasses]
  by_cases h1 : appThemeOf t ≠ ""
  · rw [if_pos h1]
    exact nodup_classAdd _ _ hbase
  · rw [if_neg h1]
    exact hbase

/-- applyAppTheme keeps the footer class list duplicate-free. -/
theorem applyAppTheme_footerClasses_nodup (loc t : String) (s : ThemeState)
    (h : s.footerClasses.Nodup) : (applyAppTheme loc t s).footerClasses.Nodup := by
  rw [applyAppTheme_footerClasses]
  exact nodup_classAdd _ _ (nodup_classRemove _ _ h)

/-- applyAppTheme keeps the iframe class list duplicate-free. -/
theorem applyAppTheme_iframeClasses_nodup (loc t : String) (s : ThemeState)
    (h : s.iframeClasses.Nodup) : (applyAppTheme loc t s).iframeClasses.Nodup := by
  have hbase : (if contentThemeOf s.htmlDatasetTheme ≠ "" ∧
      contentThemeOf s.htmlDatasetTheme ≠ contentThemeOf t then
      classRemove s.iframeClasses (contentThemeOf s.htmlDatasetTheme)
    else s.iframeClasses).Nodup := by
    by_cases h2 : contentThemeOf s.htmlDatasetTheme ≠ "" ∧
        contentThemeOf s.htmlDatasetTheme ≠ contentThemeOf t
    · rw [if_pos h2]
      exact nodup_classRemove _ _ h
    · rw [if_neg h2]
      exact h
  rw [applyAppTheme_iframeClasses]
  by_cases h1 : contentThemeOf t ≠ "" ∧
      sheetMatchesTheme (contentThemeOf t) (findKiwixSheet s.doc) = false
  · rw [if_pos h1]
    exact nodup_classAdd _ _ hbase
  · rw [if_neg h1]
    exact hbase

/-- Under the well-formedness hypothesis that the embedded head carries
no kiwixJSTheme link, the first call leaves the head unchanged when no
contentTheme is requested, and otherwise appends exactly the injected
link. -/
theorem applyAppTheme_doc_shape (loc t : String) (s : ThemeState)
    (hD : ∀ l ∈ docLinks s, l.id ≠ "kiwixJSTheme") :
    (applyAppTheme loc t s).doc =
      (if contentThemeOf t ≠ "" then
        appendSheet s.doc (newSheet loc (contentThemeOf t))
      else s.doc) := by
  have hsheetnone : findKiwixSheet s.doc = none := by
    cases hdoc : s.doc with
    | none => rfl
    | some links =>
      apply findKiwixSheet_none_of_noId
      intro l hl
      exact hD l (by rw [docLinks, hdoc]; exact hl)
  have hremove1 : removeSheet s.doc (findKiwixSheet s.doc) = s.doc := by
    rw [hsheetnone]
    cases s.doc <;> rfl
  have hmatch : sheetMatchesTheme (contentThemeOf t) (findKiwixSheet s.doc) = false := by
    rw [hsheetnone]
    rfl
  rw [applyAppTheme_doc, hremove1, ite_self, hmatch]
  by_cases hct : contentThemeOf t ≠ ""
  · rw [if_pos ⟨hct, rfl⟩, if_pos hct]
  · rw [if_neg (fun hc => hct hc.1), if_neg hct]

/-- Claim C7: applying the same theme selector twice in a row is
idempotent.  Starting from a well-formed state (duplicate-free class
lists; no kiwixJSTheme stylesheet link already in the embedded head and
none matching the requested filename fragment), the second call changes
neither the class sets of the shell root, footer and content frame, nor
the embedded head, the dataset marker or the help panels; all class
lists stay duplicate-free and at most one stylesheet link matching the
content-theme filename fragment is attached. -/
theorem applyAppTheme_idem (loc t : String) (s : ThemeState)
    (hH : s.htmlClasses.Nodup) (hF : s.footerClasses.Nodup)
    (hI : s.iframeClasses.Nodup)
    (hD : ∀ l ∈ docLinks s, l.id ≠ "kiwixJSTheme" ∧
      fragMatches (contentThemeOf t) l.href = false) :
    (∀ c, c ∈ (applyAppTheme loc t (applyAppTheme loc t s)).htmlClasses ↔
        c ∈ (applyAppTheme loc t s).htmlClasses) ∧
    (∀ c, c ∈ (applyAppTheme loc t (applyAppTheme loc t s)).footerClasses ↔
        c ∈ (applyAppTheme loc t s).footerClasses) ∧
    (applyAppTheme loc t (applyAppTheme loc t s)).iframeClasses
      = (applyAppTheme loc t s).iframeClasses ∧
    (applyAppTheme loc t (applyAppTheme loc t s)).doc
      = (applyAppTheme loc t s).doc ∧
    (applyAppTheme loc t (applyAppTheme loc t s)).htmlDatasetTheme
      = (applyAppTheme loc t s).htmlDatasetTheme ∧
    (applyAppTheme loc t (applyAppTheme loc t s)).helpPanels
      = (applyAppTheme loc t s).helpPanels ∧
    (applyAppTheme loc t (applyAppTheme loc t s)).htmlClasses.Nodup ∧
    (applyAppTheme loc t (applyAppTheme loc t s)).footerClasses.Nodup ∧
    (applyAppTheme loc t (applyAppTheme loc t s)).iframeClasses.Nodup ∧
    countMatchingSheets (contentThemeOf t)
      (applyAppTheme loc t (applyAppTheme loc t s)).doc ≤ 1 := by
  have hDid : ∀ l ∈ docLinks s, l.id ≠ "kiwixJSTheme" := fun l hl => (hD l hl).1
  have hds1 : (applyAppTheme loc t s).htmlDatasetTheme = t := rfl
  have hro2 : ¬ (contentThemeOf t ≠ "" ∧ contentThemeOf t ≠ contentThemeOf t) :=
    fun h => h.2 rfl
  have hs1doc := applyAppTheme_doc_shape loc t s hDid
  have hsheetnone : findKiwixSheet s.doc = none := by
    cases hdoc : s.doc with
    | none => rfl
    | some links =>
      exact findKiwixSheet_none_of_noId links
        (fun l hl => hDid l (by rw [docLinks, hdoc]; exact hl))
  have hmatch1 : sheetMatchesTheme (contentThemeOf t) (findKiwixSheet s.doc) = false := by
    rw [hsheetnone]
    rfl
  have hs1docnone : contentThemeOf t ≠ "" → s.doc = none →
      (applyAppTheme loc t s).doc = none := by
    intro hct hdoc
    rw [hs1doc, if_pos hct, hdoc]
    rfl
  have hs1matchSome : contentThemeOf t ≠ "" → ∀ links, s.doc = some links →
      sheetMatchesTheme (contentThemeOf t)
        (findKiwixSheet (applyAppTheme loc t s).doc) = true := by
    intro hct links hdoc
    have hfind : findKiwixSheet (applyAppTheme loc t s).doc
        = some (newSheet loc (contentThemeOf t)) := by
      rw [hs1doc, if_pos hct, hdoc]
      exact findKiwixSheet_append links _ rfl
        (fun l hl => hDid l (by rw [docLinks, hdoc]; exact hl))
    rw [hfind]
    show fragMatches (contentThemeOf t) (newSheet loc (contentThemeOf t)).href = true
    exact fragMatches_newSheet loc (contentThemeOf t)
  have hdoceq : (applyAppTheme loc t (applyAppTheme loc t s)).doc
      = (applyAppTheme loc t s).doc := by
    rw [applyAppTheme_doc loc t (applyAppTheme loc t s), hds1, if_neg hro2]
    by_cases hct : contentThemeOf t ≠ ""
    · cases hdoc : s.doc with
      | none =>
        have hn := hs1docnone hct hdoc
        rw [if_pos ⟨hct, by rw [hn]; rfl⟩, hn]
        rfl
      | some links =>
        have hmt := hs1matchSome hct links hdoc
        rw [if_neg (fun hcond => by rw [hmt] at hcond; exact Bool.noConfusion hcond.2)]
    · rw [if_neg (fun hcond => hct hcond.1)]
  have hifr : (applyAppTheme loc t (applyAppTheme loc t s)).iframeClasses
      = (applyAppTheme loc t s).iframeClasses := by
    rw [applyAppTheme_iframeClasses loc t (applyAppTheme loc t s), hds1, if_neg hro2]
    by_cases hct : contentThemeOf t ≠ ""
    · cases hdoc : s.doc with
      | none =>
        have hn := hs1docnone hct hdoc
        rw [if_pos ⟨hct, by rw [hn]; rfl⟩]
        apply classAdd_eq_of_mem
        rw [applyAppTheme_iframeClasses loc t s, if_pos ⟨hct, hmatch1⟩]
        exact classAdd_self_mem _ _
      | some links =>
        have hmt := hs1matchSome hct links hdoc
        rw [if_neg (fun hcond => by rw [hmt] at hcond; exact Bool.noConfusion hcond.2)]
    · rw [if_neg (fun hcond => hct hcond.1)]
  have hhelp : (applyAppTheme loc t (applyAppTheme loc t s)).helpPanels
      = (applyAppTheme loc t s).helpPanels := by
    rw [applyAppTheme_helpPanels loc t (applyAppTheme loc t s), hds1,
      setPanelDisplay_overwrite, applyAppTheme_helpPanels loc t s]
    exact setPanelDisplay_overwrite _ (t ++ "-help") "block" "block"
  have hhtmlIff : ∀ c, c ∈ (applyAppTheme loc t (applyAppTheme loc t s)).htmlClasses ↔
      c ∈ (applyAppTheme loc t s).htmlClasses := by
    intro c
    rw [applyAppTheme_htmlClasses loc t (applyAppTheme loc t s), hds1]
    by_cases ha : appThemeOf t ≠ ""
    · rw [if_pos ha, if_pos ha]
      have hmem : appThemeOf t ∈ (applyAppTheme loc t s).htmlClasses := by
        rw [applyAppTheme_htmlClasses loc t s, if_pos ha]
        exact classAdd_self_mem _ _
      rw [mem_classAdd, mem_classRemove]
      constructor
      · rintro (⟨hc, _⟩ | rfl)
        · exact hc
        · exact hmem
      · intro hc
        by_cases hca : c = appThemeOf t
        · exact Or.inr hca
        · exact Or.inl ⟨hc, hca⟩
    · rw [if_neg ha, if_neg ha]
  have hfootIff : ∀ c, c ∈ (applyAppTheme loc t (applyAppTheme loc t s)).footerClasses ↔
      c ∈ (applyAppTheme loc t s).footerClasses := by
    intro c
    rw [applyAppTheme_footerClasses loc t (applyAppTheme loc t s), hds1]
    have hmem : (if contentThemeOf t = "" then "_light" else contentThemeOf t)
        ∈ (applyAppTheme loc t s).footerClasses := by
      rw [applyAppTheme_footerClasses loc t s]
      exact classAdd_self_mem _ _
    rw [mem_classAdd, mem_classRemove]
    constructor
    · rintro (⟨hc, _⟩ | rfl)
      · exact hc
      · exact hmem
    · intro hc
      by_cases hca : c = (if contentThemeOf t = "" then "_light" else contentThemeOf t)
      · exact Or.inr hca
      · exact Or.inl ⟨hc, hca⟩
  have hcount : countMatchingSheets (contentThemeOf t) (applyAppTheme loc t s).doc ≤ 1 := by
    rw [hs1doc]
    by_cases hct : contentThemeOf t ≠ ""
    · rw [if_pos hct]
      cases hdoc : s.doc with
      | none => exact Nat.zero_le 1
      | some links =>
        have hz : ∀ l ∈ links, fragMatches (contentThemeOf t) l.href = false :=
          fun l hl => (hD l (by rw [docLinks, hdoc]; exact hl)).2
        show (links ++ [newSheet loc (contentThemeOf t)]).countP
          (fun l => fragMatches (contentThemeOf t) l.href) ≤ 1
        rw [List.countP_append]
        have h0 : links.countP (fun l => fragMatches (contentThemeOf t) l.href) = 0 := by
          rw [List.countP_eq_zero]
          intro l hl
          simp [hz l hl]
        rw [h0]
        simp [List.countP_cons, fragMatches_newSheet]
    · rw [if_neg hct]
      cases hdoc : s.doc with
      | none => exact Nat.zero_le 1
      | some links =>
        have hz : ∀ l ∈ links, fragMatches (contentThemeOf t) l.href = false :=
          fun l hl => (hD l (by rw [docLinks, hdoc]; exact hl)).2
        show links.countP (fun l => fragMatches (contentThemeOf t) l.href) ≤ 1
        have h0 : links.countP (fun l => fragMatches (contentThemeOf t) l.href) = 0 := by
          rw [List.countP_eq_zero]
          intro l hl
          simp [hz l hl]
        rw [h0]
        exact Nat.zero_le 1
  refine ⟨hhtmlIff, hfootIff, hifr, hdoceq, rfl, hhelp, ?_, ?_, ?_, ?_⟩
  · exact applyAppTheme_htmlClasses_nodup loc t _
      (applyAppTheme_htmlClasses_nodup loc t s hH)
  · exact applyAppTheme_footerClasses_nodup loc t _
      (applyAppTheme_footerClasses_nodup loc t s hF)
  · exact applyAppTheme_iframeClasses_nodup loc t _
      (applyAppTheme_iframeClasses_nodup loc t s hI)
  · rw [hdoceq]
    exact hcount

/-- Witness for claim C7 at a concrete clean state and the selector
`dark_invert`: the decidable components of the idempotence conclusion,
with the universally quantified class-membership components instantiated
at the classes `dark` and `_invert`. -/
theorem applyAppTheme_idem_witness :
    ((applyAppTheme "http://h/index.html" "dark_invert"
        (applyAppTheme "http://h/index.html" "dark_invert"
          ⟨[], "", [], [], some [], "", [], false, "none", 0⟩)).iframeClasses
      = (applyAppTheme "http://h/index.html" "dark_invert"
          ⟨[], "", [], [], some [], "", [], false, "none", 0⟩).iframeClasses) ∧
    ((applyAppTheme "http://h/index.html" "dark_invert"
        (applyAppTheme "http://h/index.html" "dark_invert"
          ⟨[], "", [], [], some [], "", [], false, "none", 0⟩)).doc
      = (applyAppTheme "http://h/index.html" "dark_invert"
          ⟨[], "", [], [], some [], "", [], false, "none", 0⟩).doc) ∧
    ("dark" ∈ (applyAppTheme "http://h/index.html" "dark_invert"
        (applyAppTheme "http://h/index.html" "dark_invert"
          ⟨[], "", [], [], some [], "", [], false, "none", 0⟩)).htmlClasses ↔
      "dark" ∈ (applyAppTheme "http://h/index.html" "dark_invert"
          ⟨[], "", [], [], some [], "", [], false, "none", 0⟩).htmlClasses) ∧
    countMatchingSheets (contentThemeOf "dark_invert")
      (applyAppTheme "http://h/index.html" "dark_invert"
        (applyAppTheme "http://h/index.html" "dark_invert"
          ⟨[], "", [], [], some [], "", [], false, "none", 0⟩)).doc ≤ 1 := by
  have h := applyAppTheme_idem "http://h/index.html" "dark_invert"
    ⟨[], "", [], [], some [], "", [], false, "none", 0⟩
    (by decide) (by decide) (by decide) (by decide)
  exact ⟨h.2.2.1, h.2.2.2.1, h.1 "dark", h.2.2.2.2.2.2.2.2.2⟩
